import Mathlib

/-!
Shallow embedding of `src/Lighthouse.py` (class `Lighthouse`): a distributed
node controller for master/slave failover and status management.

Modelling conventions:
* JSON values exchanged on the wire are `JsonVal`; Python truthiness of a
  JSON value is `truthy`.
* The network is a parameter `PeerEnv`: for each address, either `none`
  (the request times out, the connection fails, or the response is
  malformed — every such failure is caught by the Python code's bare
  `except` and collapses to the same behaviour) or a well-formed response.
* Host callbacks are opaque; `Callbacks` records which hooks are
  registered, their declared parameter count (the code inspects
  `__code__.co_argcount`), and whether invoking them raises.
* Side effects are recorded as an `Event` trace: outbound HTTP requests,
  callback invocations, the status assignment, and stagger sleeps.
* An `Outcome` carries the node state, the event trace, and whether an
  uncaught Python exception is propagating out of the modelled call.
* Wall-clock time is an explicit `now : Nat` parameter.
-/

namespace Lighthouse

/-- JSON values, as produced by `request.get_json()` / `resp.json()`. -/
inductive JsonVal where
  | null : JsonVal
  | bool (b : Bool) : JsonVal
  | num (n : Int) : JsonVal
  | str (s : String) : JsonVal
  | arr (xs : List JsonVal) : JsonVal
  | obj (kvs : List (String × JsonVal)) : JsonVal

/-- Python truthiness of a JSON value (`if data.get('last_update'):`). -/
def truthy : JsonVal → Bool
  | .null => false
  | .bool b => b
  | .num n => decide (n ≠ 0)
  | .str s => decide (s ≠ "")
  | .arr xs => !xs.isEmpty
  | .obj kvs => !kvs.isEmpty

/-- A well-formed body of a peer's `/status` response:
`{'name': ..., 'status': ..., 'slaves': ...}` (`name` optional, read with
`data.get('name', 'Server')`). -/
structure StatusResp where
  name : Option String
  status : String
  slaves : List String

/-- The network, as observed by this node. `statusOf ip = none` means a GET
to `http://ip/status` raises (timeout, refusal, malformed body);
`syncOf ip = none` likewise for `http://ip/sync`, while `some v` means the
peer answered `{'last_update': v}`. -/
structure PeerEnv where
  statusOf : String → Option StatusResp
  syncOf : String → Option JsonVal

/-- The configuration JSON (plus the `pass_flask_app` constructor flag).
`config['slaves']` is mutable (lazily re-discovered by the monitor), so it
lives in `NodeState` instead. -/
structure Config where
  role : String
  self_addr : String
  parent_addr : Option String
  name : Option String
  pass_flask_app : Bool

/-- The host-provided lifecycle callbacks: which are registered, the
declared argument count where the code inspects it, and whether the call
raises. -/
structure Callbacks where
  hasStart : Bool
  startRaises : Bool
  hasStop : Bool
  stopArgc : Nat
  stopRaises : Bool
  hasUpdate : Bool
  updateArgc : Nat
  updateRaises : Bool

/-- The mutable per-node state of a `Lighthouse` instance.
`monitor_alive` models `hasattr(self, 'monitor_thread') and
self.monitor_thread.is_alive()`; `stop_flag` models the
`stop_monitor_thread` event; `slaves` is `config['slaves']`. -/
structure NodeState where
  status : String
  custom_status : Bool
  timeout_start : Nat
  timeout : Nat
  last_update : JsonVal
  monitor_alive : Bool
  stop_flag : Bool
  slaves : List String

/-- Observable side effects, in program order. -/
inductive Event where
  | get (ip : String) (path : String)
  | post (ip : String) (path : String)
  | setStatus (st : String)
  | startCb (passApp : Bool) (port : Option String)
  | stopCb (arg : Option String)
  | updateCb (arg : Option JsonVal)
  | sleep (n : Nat)

/-- Result of a modelled call: final state, emitted events, and whether an
uncaught exception is propagating to the caller. -/
structure Outcome where
  state : NodeState
  events : List Event
  raised : Bool

/-- Addresses targeted by outbound HTTP requests in a trace. -/
def eventTargets : List Event → List String
  | [] => []
  | .get ip _ :: rest => ip :: eventTargets rest
  | .post ip _ :: rest => ip :: eventTargets rest
  | _ :: rest => eventTargets rest

/-- Embeds `self.config['self_addr'].rsplit(':', 1)[1]`: the text after the
last colon, or `none` when there is no colon (Python raises IndexError). -/
def portOf (addr : String) : Option String :=
  let parts := (addr.data.splitOnP (fun c => c == ':')).map
    (fun l => (⟨l⟩ : String))
  if parts.length ≥ 2 then parts.getLast? else none

/-- Embeds `endpoint.lstrip("/")`. -/
def lstripSlash (e : String) : String :=
  ⟨e.data.dropWhile (fun c => c == '/')⟩

/-- Embeds `ping_status`: GET `/status`, then `'UP'` when the reported
status is `'running'`, `'IDLE'` otherwise, `'DOWN'` on any exception. -/
def ping_status (env : PeerEnv) (ip : String) : String :=
  match env.statusOf ip with
  | none => "DOWN"
  | some d => if d.status = "running" then "UP" else "IDLE"

/-- Embeds `ping_raw_status`: the peer's raw status string, or `none`
(Python `None`) when the request or JSON access raises. -/
def ping_raw_status (env : PeerEnv) (ip : String) : Option String :=
  match env.statusOf ip with
  | none => none
  | some d => some d.status

/-- Embeds `get_slaves(ip)` (called with `ip = config['parent_addr']`):
returns the peer's `slaves` list, with `config['parent_addr']` prepended
when absent from it; `[]` on any exception. Second component: the emitted
request. -/
def get_slaves (env : PeerEnv) (parent : String) (ip : String) :
    List String × List Event :=
  match env.statusOf ip with
  | none => ([], [.get ip "/status"])
  | some d =>
      (if parent ∈ d.slaves then d.slaves else parent :: d.slaves,
       [.get ip "/status"])

/-- Embeds `stop_main_code(action)`: sets `status = 'waiting'` unless a
custom status is in force, then invokes the stop callback, passing
`action` exactly when the callback declares at least one parameter. -/
def stop_main_code (cb : Callbacks) (action : String) (s : NodeState) :
    Outcome :=
  let s1 := {s with status := if s.custom_status then s.status else "waiting"}
  if cb.hasStop then
    ⟨s1, [.stopCb (if 0 < cb.stopArgc then some action else none)],
     cb.stopRaises⟩
  else ⟨s1, [], false⟩

/-- Embeds `start_main_code`: sets `status = 'running'`, then invokes the
start callback — with the Flask app handle and the port taken from
`self_addr.rsplit(':', 1)[1]` when `pass_flask_app` is set (an address
with no colon makes that subscript raise IndexError), with no arguments
otherwise. -/
def start_main_code (cb : Callbacks) (cfg : Config) (s : NodeState) :
    Outcome :=
  let s1 := {s with status := "running"}
  if cb.hasStart then
    if cfg.pass_flask_app then
      match portOf cfg.self_addr with
      | none => ⟨s1, [.setStatus "running"], true⟩
      | some port =>
          ⟨s1, [.setStatus "running", .startCb true (some port)],
           cb.startRaises⟩
    else ⟨s1, [.setStatus "running", .startCb false none], cb.startRaises⟩
  else ⟨s1, [.setStatus "running"], false⟩

/-- Embeds the loop of `notify_slaves(endpoint)`: a POST to every address
in `config['slaves']` other than `self_addr` (request failures are caught
and only logged, so the trace is the whole story). -/
def notify_slaves_events (cfg : Config) (slaves : List String)
    (endpoint : String) : List Event :=
  (slaves.filter (fun ip => ip ≠ cfg.self_addr)).map
    (fun ip => .post ip (lstripSlash endpoint))

/-- Embeds `promote_to_active`: `start_main_code()` then
`notify_slaves('reset')`. A raising start callback propagates, so the
notifications are skipped in that case. -/
def promote_to_active (cb : Callbacks) (cfg : Config) (s : NodeState) :
    Outcome :=
  let o := start_main_code cb cfg s
  if o.raised then o
  else ⟨o.state, o.events ++ notify_slaves_events cfg s.slaves "reset", false⟩

/-- Embeds `send_update(data)`: a POST of the payload to every address in
`config['slaves']` other than `self_addr`. -/
def send_update (cfg : Config) (slaves : List String) (_data : JsonVal) :
    List Event :=
  (slaves.filter (fun ip => ip ≠ cfg.self_addr)).map
    (fun ip => .post ip "/update")

/-- Result of `sync_from_slaves`: the payload at which the loop stopped
with a `break` (if any) and the emitted events. -/
structure SyncResult where
  accepted : Option JsonVal
  events : List Event

/-- Embeds the loop body of `sync_from_slaves`: skip `self_addr`; GET
`/sync` from each peer; on a truthy `last_update` invoke the update
callback with the payload and `break`. The per-peer `try` covers both the
request and the callback, so a failing request, a raising callback, or a
zero-parameter callback called with one argument (TypeError) is caught
and the loop continues without accepting. -/
def syncLoop (cb : Callbacks) (env : PeerEnv) (self : String) :
    List String → SyncResult
  | [] => ⟨none, []⟩
  | ip :: rest =>
    if ip = self then syncLoop cb env self rest
    else
      match env.syncOf ip with
      | none =>
          let r := syncLoop cb env self rest
          ⟨r.accepted, .get ip "/sync" :: r.events⟩
      | some v =>
          if truthy v then
            if cb.hasUpdate then
              if cb.updateRaises || cb.updateArgc = 0 then
                let r := syncLoop cb env self rest
                ⟨r.accepted, .get ip "/sync" :: .updateCb (some v) :: r.events⟩
              else ⟨some v, [.get ip "/sync", .updateCb (some v)]⟩
            else ⟨some v, [.get ip "/sync"]⟩
          else
            let r := syncLoop cb env self rest
            ⟨r.accepted, .get ip "/sync" :: r.events⟩

/-- Embeds `sync_from_slaves`: runs `syncLoop` over `config['slaves']`.
The method never assigns `self.last_update`, so the node state is
returned unchanged. -/
def sync_from_slaves (cb : Callbacks) (env : PeerEnv) (cfg : Config)
    (s : NodeState) : NodeState × SyncResult :=
  (s, syncLoop cb env cfg.self_addr s.slaves)

/-- Embeds `initialize(observedAlive)`. `observedAlive` is the value of
`hasattr(self, 'monitor_thread') and self.monitor_thread.is_alive()` at
the moment of the call: `s.monitor_alive` when called from a request
thread, `true` when called from inside the monitor thread itself. Master
role with no pending timeout syncs, notifies `reset`, and starts the main
code; otherwise a monitor thread is started only when none is observed
alive. -/
def initializeNode (cb : Callbacks) (env : PeerEnv) (cfg : Config)
    (observedAlive : Bool) (s : NodeState) : Outcome :=
  if cfg.role = "master" ∧ s.timeout = 0 then
    let sync := (sync_from_slaves cb env cfg s).2
    let nevs := notify_slaves_events cfg s.slaves "reset"
    let o := start_main_code cb cfg s
    ⟨o.state, sync.events ++ nevs ++ o.events, o.raised⟩
  else if observedAlive then ⟨s, [], false⟩
  else ⟨{s with stop_flag := false, monitor_alive := true}, [], false⟩

/-- Embeds the `/reset` handler: `stop_main_code('reset')` then
`initialize()`; a raising stop callback propagates before `initialize`
runs. -/
def reset (cb : Callbacks) (env : PeerEnv) (cfg : Config) (s : NodeState) :
    Outcome :=
  let o1 := stop_main_code cb "reset" s
  if o1.raised then o1
  else
    let o2 := initializeNode cb env cfg o1.state.monitor_alive o1.state
    ⟨o2.state, o1.events ++ o2.events, o2.raised⟩

/-- Embeds the `/stop` handler: `stop_main_code('stop')`. -/
def stopEndpoint (cb : Callbacks) (s : NodeState) : Outcome :=
  stop_main_code cb "stop" s

/-- Embeds the `/update` handler: store the posted payload as
`last_update`, then invoke the update callback — with the payload exactly
when the callback declares at least one parameter. Nothing catches a
raising callback here. -/
def update (cb : Callbacks) (payload : JsonVal) (s : NodeState) : Outcome :=
  let s1 := {s with last_update := payload}
  if cb.hasUpdate then
    ⟨s1, [.updateCb (if 0 < cb.updateArgc then some payload else none)],
     cb.updateRaises⟩
  else ⟨s1, [], false⟩

/-- Embeds `set_temp_status(status_msg, timeout)`: mark the custom status,
record the deadline, then `stop_main_code('stop')`. -/
def set_temp_status (cb : Callbacks) (now : Nat) (status_msg : String)
    (tmo : Nat) (s : NodeState) : Outcome :=
  stop_main_code cb "stop"
    {s with custom_status := true, status := status_msg,
            timeout_start := now, timeout := tmo}

/-- Embeds the loop of `any_main_running`: skip `self_addr`; return true
at the first peer whose `ping_status` is `'UP'` (the remaining peers are
not contacted). -/
def amrLoop (env : PeerEnv) (self : String) :
    List String → Bool × List Event
  | [] => (false, [])
  | ip :: rest =>
    if ip = self then amrLoop env self rest
    else if ping_status env ip = "UP" then (true, [.get ip "/status"])
    else
      let r := amrLoop env self rest
      (r.1, .get ip "/status" :: r.2)

/-- Embeds `any_main_running`: the polled list is `config['slaves']` when
the role is master or the parent address occurs in it, and
`[config['parent_addr']] + config['slaves']` otherwise; in the latter
case a missing `parent_addr` key raises (KeyError), modelled as `none`. -/
def any_main_running (env : PeerEnv) (cfg : Config) (slaves : List String) :
    Option (Bool × List Event) :=
  let parentIn : Bool :=
    match cfg.parent_addr with
    | some p => decide (p ∈ slaves)
    | none => false
  if cfg.role = "master" ∨ parentIn then
    some (amrLoop env cfg.self_addr slaves)
  else
    match cfg.parent_addr with
    | some p => some (amrLoop env cfg.self_addr (p :: slaves))
    | none => none

/-- Embeds the stagger computation before a failover check:
`5 * config['slaves'].index(config['self_addr'])`, with the ValueError
fallback `5` when `self_addr` does not occur in the list. -/
def staggerDelay (self : String) (slaves : List String) : Nat :=
  match slaves.findIdx? (fun ip => ip = self) with
  | some i => 5 * i
  | none => 5

/-- Result of one iteration of the `monitor` while-loop body.
`promoted` records whether `promote_to_active` was called; `stagger` the
stagger delay slept before the failover re-check, when one was;
`loopContinues` whether the loop runs another iteration afterwards (the
timeout branch sets the stop event and breaks — and even if `initialize`
raises there, the caught exception lands on the loop condition with the
stop event already set, so the loop ends either way). -/
structure TickResult where
  state : NodeState
  events : List Event
  promoted : Bool
  stagger : Option Nat
  loopContinues : Bool

/-- Embeds one iteration of the body of `monitor`. The whole body runs
inside `try`/`except`, so a missing `parent_addr` key (KeyError) or a
raising callback reached through `promote_to_active` is caught, logged,
and leaves the loop running. In the timeout branch, `initialize` is
called from inside the monitor thread itself, which is still alive, so
its `monitor_thread.is_alive()` check observes `true`; the thread then
breaks out of the loop and exits, and `monitor_alive` becomes false
because no new thread was started. -/
def monitorTick (cb : Callbacks) (env : PeerEnv) (cfg : Config) (now : Nat)
    (s : NodeState) : TickResult :=
  if s.timeout ≠ 0 ∧ s.timeout_start + s.timeout < now then
    let s1 := {s with stop_flag := true, custom_status := false, timeout := 0}
    let o := initializeNode cb env cfg true s1
    ⟨{o.state with monitor_alive := false}, o.events, false, none, false⟩
  else if cfg.role = "slave" then
    match cfg.parent_addr with
    | none => ⟨s, [], false, none, true⟩
    | some parent =>
      let pstat := ping_raw_status env parent
      let ev0 : List Event := [.get parent "/status"]
      let discovered := get_slaves env parent parent
      let slaves1 :=
        if s.slaves.isEmpty then
          if discovered.1.isEmpty then s.slaves else discovered.1
        else s.slaves
      let ev1 := if s.slaves.isEmpty then discovered.2 else []
      let s2 := {s with slaves := slaves1}
      if (pstat ≠ some "running" ∧ pstat ≠ some "waiting") ∧
          s2.status ≠ "running" then
        let d := staggerDelay cfg.self_addr slaves1
        match any_main_running env cfg slaves1 with
        | none =>
            ⟨s2, ev0 ++ ev1 ++ [.sleep d], false, some d, true⟩
        | some r =>
            if r.1 then
              ⟨s2, ev0 ++ ev1 ++ [.sleep d] ++ r.2, false, some d, true⟩
            else
              let o := promote_to_active cb cfg s2
              ⟨o.state, ev0 ++ ev1 ++ [.sleep d] ++ r.2 ++ o.events,
               true, some d, true⟩
      else ⟨s2, ev0 ++ ev1, false, none, true⟩
  else ⟨s, [], false, none, true⟩

/-- Record in the aggregate status listing: `{'name': ..., 'ip': ...,
'status': ...}`. -/
structure StatusRecord where
  name : String
  ip : String
  status : String
deriving DecidableEq

/-- Embeds the peer loop of `get_all_statuses`: skip `self_addr`; GET
`/status` from each remaining address; on success record the reported
name and status, on any exception record `'crashed'`; `add_status` drops
addresses already seen. The request happens before the seen-check, so
duplicates are still contacted. -/
def gasLoop (env : PeerEnv) (self : String) (seen : List String) :
    List String → List StatusRecord × List Event
  | [] => ([], [])
  | ip :: rest =>
    if ip = self then gasLoop env self seen rest
    else
      let rec_ : StatusRecord :=
        match env.statusOf ip with
        | some d => ⟨d.name.getD "Server", ip, d.status⟩
        | none => ⟨"Server", ip, "crashed"⟩
      if ip ∈ seen then
        let r := gasLoop env self seen rest
        (r.1, .get ip "/status" :: r.2)
      else
        let r := gasLoop env self (ip :: seen) rest
        (rec_ :: r.1, .get ip "/status" :: r.2)

/-- The address list iterated by `get_all_statuses`: `config['slaves']`,
with `config['parent_addr']` prepended when the role is not master, the
key is present, and the parent is not already listed. -/
def gasIpList (cfg : Config) (s : NodeState) : List String :=
  match cfg.parent_addr with
  | some p =>
      if cfg.role ≠ "master" ∧ p ∉ s.slaves then p :: s.slaves else s.slaves
  | none => s.slaves

/-- Embeds `get_all_statuses`: the self record goes in first (so
`self_addr` is in the seen-set from the start), then the peer loop over
`gasIpList` appends one record per previously-unseen address. -/
def get_all_statuses (env : PeerEnv) (cfg : Config) (s : NodeState) :
    List StatusRecord × List Event :=
  let selfRec : StatusRecord := ⟨cfg.name.getD "Server", cfg.self_addr, s.status⟩
  let r := gasLoop env cfg.self_addr [cfg.self_addr] (gasIpList cfg s)
  (selfRec :: r.1, r.2)

/-! ## Helper lemmas -/

/-- The state left by `stop_main_code`: only `status` changes, and only
when no custom status is in force. -/
theorem stop_main_code_state (cb : Callbacks) (action : String)
    (s : NodeState) :
    (stop_main_code cb action s).state =
      {s with status := if s.custom_status then s.status else "waiting"} := by
  unfold stop_main_code
  by_cases h : cb.hasStop <;> simp [h]

/-- Whether `stop_main_code` raises. -/
theorem stop_main_code_raised (cb : Callbacks) (action : String)
    (s : NodeState) :
    (stop_main_code cb action s).raised = (cb.hasStop && cb.stopRaises) := by
  unfold stop_main_code
  by_cases h : cb.hasStop <;> simp [h]

/-- The state left by `start_main_code`: only `status` changes. -/
theorem start_main_code_state (cb : Callbacks) (cfg : Config)
    (s : NodeState) :
    (start_main_code cb cfg s).state = {s with status := "running"} := by
  unfold start_main_code
  by_cases h1 : cb.hasStart <;> by_cases h2 : cfg.pass_flask_app <;>
    simp [h1, h2] <;> cases portOf cfg.self_addr <;> simp

/-- The state left by `initializeNode`: the master path only sets
`status := "running"`; the other path arms the monitor exactly when none
was observed alive. -/
theorem initializeNode_state (cb : Callbacks) (env : PeerEnv) (cfg : Config)
    (observedAlive : Bool) (s : NodeState) :
    (initializeNode cb env cfg observedAlive s).state =
      if cfg.role = "master" ∧ s.timeout = 0 then {s with status := "running"}
      else if observedAlive then s
      else {s with stop_flag := false, monitor_alive := true} := by
  unfold initializeNode
  by_cases h : cfg.role = "master" ∧ s.timeout = 0
  · simp [h, start_main_code_state]
  · by_cases h2 : observedAlive <;> simp [h, h2]

/-- The state left by `promote_to_active`: only `status` changes. -/
theorem promote_to_active_state (cb : Callbacks) (cfg : Config)
    (s : NodeState) :
    (promote_to_active cb cfg s).state = {s with status := "running"} := by
  unfold promote_to_active
  by_cases hr : (start_main_code cb cfg s).raised <;>
    simp [hr, start_main_code_state]

/-! ## Claim theorems -/

/-- C5: the stagger delay computed before a failover check is
`5 * index_of(self_addr, slaves)` (`List.findIdx?` with accumulator 0 is
the first-occurrence index, exactly Python's `list.index`); when
`self_addr` does not occur in the list the ValueError fallback yields the
fixed step 5, never zero; for a 3-element list with self at index 2 the
delay is 10; and whenever a monitor tick records a stagger delay, that
delay is `staggerDelay` of the tick's (possibly freshly discovered) slave
list. -/
theorem C5_stagger_delay (self : String) (slaves : List String)
    (cb : Callbacks) (env : PeerEnv) (cfg : Config) (now : Nat)
    (s : NodeState) (d : Nat) :
    (∀ i, slaves.findIdx? (fun ip => ip = self) = some i →
      staggerDelay self slaves = 5 * i) ∧
    (self ∉ slaves → staggerDelay self slaves = 5 ∧
      staggerDelay self slaves ≠ 0) ∧
    staggerDelay "c" ["a", "b", "c"] = 10 ∧
    ((monitorTick cb env cfg now s).stagger = some d →
      d = staggerDelay cfg.self_addr
            (monitorTick cb env cfg now s).state.slaves) := by
  refine ⟨?_, ?_, by decide, ?_⟩
  · intro i h
    unfold staggerDelay
    rw [h]
  · intro hmem
    have hnone : slaves.findIdx? (fun ip => ip = self) = none := by
      rw [List.findIdx?_eq_none_iff]
      intro x hx
      simp only [decide_eq_false_iff_not]
      exact fun hEq => hmem (hEq ▸ hx)
    unfold staggerDelay
    rw [hnone]
    exact ⟨rfl, by decide⟩
  · unfold monitorTick
    split
    · intro h
      simp at h
    · split
      · split
        · intro h
          simp at h
        · simp only []
          split
          · split
            · intro h
              cases h
              rfl
            · split
              · intro h
                cases h
                rfl
              · intro h
                cases h
                rw [promote_to_active_state]
          · intro h
            simp at h
      · intro h
        simp at h

/-- C5 witness: concrete instances of the stagger facts. -/
theorem C5_stagger_delay_witness :
    staggerDelay "c" ["a", "b", "c"] = 10 ∧ staggerDelay "z" ["a", "b"] = 5 := by
  have h := C5_stagger_delay "z" ["a", "b"]
    ⟨false, false, false, 0, false, false, 0, false⟩
    ⟨fun _ => none, fun _ => none⟩
    ⟨"slave", "z", some "a", none, false⟩ 0
    ⟨"waiting", false, 0, 0, .null, true, false, []⟩ 0
  exact ⟨h.2.2.1, (h.2.1 (by decide)).1⟩

/-- C10: `stop_main_code` preserves the status string exactly when a
custom status is in force and otherwise sets it to `'waiting'`; the stop
callback, when registered, is invoked once, receiving the triggering
action exactly when it declares at least one parameter; no other state
field changes. -/
theorem C10_stop_main_code (cb : Callbacks) (action : String)
    (s : NodeState) :
    (s.custom_status = true →
      (stop_main_code cb action s).state.status = s.status) ∧
    (s.custom_status = false →
      (stop_main_code cb action s).state.status = "waiting") ∧
    (cb.hasStop = true →
      (stop_main_code cb action s).events =
        [.stopCb (if 0 < cb.stopArgc then some action else none)]) ∧
    (cb.hasStop = false → (stop_main_code cb action s).events = []) ∧
    (stop_main_code cb action s).state.custom_status = s.custom_status ∧
    (stop_main_code cb action s).state.timeout = s.timeout ∧
    (stop_main_code cb action s).state.last_update = s.last_update ∧
    (stop_main_code cb action s).state.monitor_alive = s.monitor_alive ∧
    (stop_main_code cb action s).state.slaves = s.slaves := by
  rw [stop_main_code_state]
  unfold stop_main_code
  by_cases h : cb.hasStop <;> by_cases hc : s.custom_status <;>
    simp [h, hc]

/-- C10 witness: a node without a custom status, with a one-parameter
stop callback, ends `'waiting'` and the callback receives the action. -/
theorem C10_stop_main_code_witness :
    (stop_main_code ⟨false, false, true, 1, false, false, 0, false⟩ "stop"
      ⟨"running", false, 0, 0, .null, false, false, []⟩).state.status =
        "waiting" ∧
    (stop_main_code ⟨false, false, true, 1, false, false, 0, false⟩ "stop"
      ⟨"running", false, 0, 0, .null, false, false, []⟩).events =
        [.stopCb (some "stop")] := by
  have h := C10_stop_main_code
    ⟨false, false, true, 1, false, false, 0, false⟩ "stop"
    ⟨"running", false, 0, 0, .null, false, false, []⟩
  refine ⟨h.2.1 rfl, ?_⟩
  have h3 := h.2.2.1 rfl
  simpa using h3

/-- C2 (code bug): a slave whose temporary-status deadline has elapsed
does clear the override on the next monitor tick (`custom_status` false,
`timeout` 0) and does re-run `initialize` — but that call runs inside the
still-alive monitor thread, so its `is_alive()` check sees `true`, no new
monitor thread is started, the current loop breaks, and the node is left
with no monitor loop and still wearing the custom status string: the
slave does not re-arm the monitor loop as the claim requires. Concrete
run: `set_temp_status('maintenance', 30)` at time 0, tick at time 31. -/
theorem C2_slave_override_expiry_kills_monitor :
    (monitorTick ⟨false, false, false, 0, false, false, 0, false⟩
      ⟨fun _ => none, fun _ => none⟩
      ⟨"slave", "b:1", some "a:1", none, false⟩ 31
      ⟨"maintenance", true, 0, 30, .null, true, false,
        ["a:1", "b:1"]⟩).state.custom_status = false ∧
    (monitorTick ⟨false, false, false, 0, false, false, 0, false⟩
      ⟨fun _ => none, fun _ => none⟩
      ⟨"slave", "b:1", some "a:1", none, false⟩ 31
      ⟨"maintenance", true, 0, 30, .null, true, false,
        ["a:1", "b:1"]⟩).state.timeout = 0 ∧
    (monitorTick ⟨false, false, false, 0, false, false, 0, false⟩
      ⟨fun _ => none, fun _ => none⟩
      ⟨"slave", "b:1", some "a:1", none, false⟩ 31
      ⟨"maintenance", true, 0, 30, .null, true, false,
        ["a:1", "b:1"]⟩).state.monitor_alive = false ∧
    (monitorTick ⟨false, false, false, 0, false, false, 0, false⟩
      ⟨fun _ => none, fun _ => none⟩
      ⟨"slave", "b:1", some "a:1", none, false⟩ 31
      ⟨"maintenance", true, 0, 30, .null, true, false,
        ["a:1", "b:1"]⟩).loopContinues = false ∧
    (monitorTick ⟨false, false, false, 0, false, false, 0, false⟩
      ⟨fun _ => none, fun _ => none⟩
      ⟨"slave", "b:1", some "a:1", none, false⟩ 31
      ⟨"maintenance", true, 0, 30, .null, true, false,
        ["a:1", "b:1"]⟩).state.status = "maintenance" := by
  refine ⟨rfl, rfl, rfl, rfl, rfl⟩

/-- Modelled from the spec's words (for the refinement comparison in C3):
the first non-empty payload obtained from the configured peers other than
self, in order. -/
def specFirstNonEmpty (env : PeerEnv) (self : String) :
    List String → Option JsonVal
  | [] => none
  | p :: rest =>
    if p = self then specFirstNonEmpty env self rest
    else
      match env.syncOf p with
      | some v =>
          if truthy v then some v else specFirstNonEmpty env self rest
      | none => specFirstNonEmpty env self rest

/-- Helper: consing onto a list keeps a known last element. -/
theorem getLast?_cons_of_getLast? {α : Type} (a x : α) (l : List α)
    (h : l.getLast? = some x) : (a :: l).getLast? = some x := by
  cases l with
  | nil => simp at h
  | cons b t => rw [List.getLast?_cons_cons]; exact h

/-- Behaviour of the `sync_from_slaves` loop when the registered update
callback is well-behaved (declares a parameter and does not raise): the
accepted payload is the first non-empty one in peer order; when one is
accepted and a callback is registered, the trace ends with that callback
invocation (nothing is contacted afterwards); when none is accepted, the
callback is never invoked. -/
theorem syncLoop_spec (cb : Callbacks) (env : PeerEnv) (self : String)
    (hcb : cb.hasUpdate = true → cb.updateRaises = false ∧ 0 < cb.updateArgc) :
    ∀ l : List String,
      (syncLoop cb env self l).accepted = specFirstNonEmpty env self l ∧
      (∀ v, (syncLoop cb env self l).accepted = some v →
        cb.hasUpdate = true →
        (syncLoop cb env self l).events.getLast? =
          some (.updateCb (some v))) ∧
      ((syncLoop cb env self l).accepted = none →
        ∀ a, Event.updateCb a ∉ (syncLoop cb env self l).events) := by
  intro l
  induction l with
  | nil => exact ⟨rfl, by intro v h _; exact absurd h (by simp [syncLoop]),
      by intro _ a; simp [syncLoop]⟩
  | cons ip rest ih =>
    by_cases hself : ip = self
    · have hstep : syncLoop cb env self (ip :: rest) =
          syncLoop cb env self rest := by
        simp [syncLoop, hself]
      have sstep : specFirstNonEmpty env self (ip :: rest) =
          specFirstNonEmpty env self rest := by
        simp [specFirstNonEmpty, hself]
      rw [hstep, sstep]
      exact ih
    · cases hsync : env.syncOf ip with
      | none =>
        have hstep : syncLoop cb env self (ip :: rest) =
            ⟨(syncLoop cb env self rest).accepted,
             .get ip "/sync" :: (syncLoop cb env self rest).events⟩ := by
          simp [syncLoop, hself, hsync]
        have sstep : specFirstNonEmpty env self (ip :: rest) =
            specFirstNonEmpty env self rest := by
          simp [specFirstNonEmpty, hself, hsync]
        rw [hstep, sstep]
        refine ⟨ih.1, ?_, ?_⟩
        · intro v hv hu
          exact getLast?_cons_of_getLast? _ _ _ (ih.2.1 v hv hu)
        · intro hnone a
          simp only [List.mem_cons]
          rintro (h | h)
          · exact Event.noConfusion h
          · exact ih.2.2 hnone a h
      | some v0 =>
        by_cases htr : truthy v0
        · have sstep : specFirstNonEmpty env self (ip :: rest) = some v0 := by
            simp [specFirstNonEmpty, hself, hsync, htr]
          by_cases hu : cb.hasUpdate
          · obtain ⟨hnr, hargc⟩ := hcb hu
            have hbad : ¬((cb.updateRaises || decide (cb.updateArgc = 0)) = true) := by
              simp [hnr]
              omega
            have hstep : syncLoop cb env self (ip :: rest) =
                ⟨some v0, [.get ip "/sync", .updateCb (some v0)]⟩ := by
              simp [syncLoop, hself, hsync, htr, hu, hbad]
            rw [hstep, sstep]
            refine ⟨rfl, ?_, ?_⟩
            · intro v hv _
              cases hv
              rfl
            · intro hnone
              exact absurd hnone (by simp)
          · have hstep : syncLoop cb env self (ip :: rest) =
                ⟨some v0, [.get ip "/sync"]⟩ := by
              simp [syncLoop, hself, hsync, htr, hu]
            rw [hstep, sstep]
            refine ⟨rfl, ?_, ?_⟩
            · intro v hv hu2
              rw [hu2] at hu
              exact absurd rfl hu
            · intro hnone
              exact absurd hnone (by simp)
        · have hstep : syncLoop cb env self (ip :: rest) =
              ⟨(syncLoop cb env self rest).accepted,
               .get ip "/sync" :: (syncLoop cb env self rest).events⟩ := by
            simp [syncLoop, hself, hsync, htr]
          have sstep : specFirstNonEmpty env self (ip :: rest) =
              specFirstNonEmpty env self rest := by
            simp [specFirstNonEmpty, hself, hsync, htr]
          rw [hstep, sstep]
          refine ⟨ih.1, ?_, ?_⟩
          · intro v hv hu
            exact getLast?_cons_of_getLast? _ _ _ (ih.2.1 v hv hu)
          · intro hnone a
            simp only [List.mem_cons]
            rintro (h | h)
            · exact Event.noConfusion h
            · exact ih.2.2 hnone a h

/-- C3 counterexample: with peers `[A, B]`, A returning an empty payload
and B returning `{x: 1}`, `sync_from_slaves` accepts B's payload and
invokes the update callback with it — but the node's `last_update` is
left at null, not set to the accepted payload, so the claim's "the
accepted payload is stored as last_update" is false on the code. -/
theorem C3_counterexample :
    (sync_from_slaves ⟨false, false, false, 0, false, true, 1, false⟩
      ⟨fun _ => none,
       fun ip => if ip = "A" then some (.obj []) else
                 if ip = "B" then some (.obj [("x", .num 1)]) else none⟩
      ⟨"master", "S", none, none, false⟩
      ⟨"waiting", false, 0, 0, .null, false, false,
        ["A", "B"]⟩).2.accepted = some (.obj [("x", .num 1)]) ∧
    Event.updateCb (some (.obj [("x", .num 1)])) ∈
      (sync_from_slaves ⟨false, false, false, 0, false, true, 1, false⟩
        ⟨fun _ => none,
         fun ip => if ip = "A" then some (.obj []) else
                   if ip = "B" then some (.obj [("x", .num 1)]) else none⟩
        ⟨"master", "S", none, none, false⟩
        ⟨"waiting", false, 0, 0, .null, false, false,
          ["A", "B"]⟩).2.events ∧
    (sync_from_slaves ⟨false, false, false, 0, false, true, 1, false⟩
      ⟨fun _ => none,
       fun ip => if ip = "A" then some (.obj []) else
                 if ip = "B" then some (.obj [("x", .num 1)]) else none⟩
      ⟨"master", "S", none, none, false⟩
      ⟨"waiting", false, 0, 0, .null, false, false,
        ["A", "B"]⟩).1.last_update = JsonVal.null ∧
    JsonVal.null ≠ JsonVal.obj [("x", .num 1)] := by
  refine ⟨rfl, ?_, rfl, fun h => JsonVal.noConfusion h⟩
  show Event.updateCb (some (.obj [("x", .num 1)])) ∈
    [Event.get "A" "/sync", Event.get "B" "/sync",
     Event.updateCb (some (.obj [("x", .num 1)]))]
  simp

/-- C3 (amended): `sync_from_slaves` iterates the configured peers in
order, excluding self, and accepts the first non-empty `last_update`
payload, stopping iteration once accepted; the update lifecycle callback
(when registered, well-behaved) is invoked with the accepted payload as
the last action; the payload is NOT stored as `last_update` — the node
state is returned unchanged; if every peer is unreachable or returns an
empty payload, the call completes without error (every per-peer failure
is caught inside the loop, which is why the embedding is total) and
without a payload, and the callback is never invoked. -/
theorem C3_sync_first_nonempty (cb : Callbacks) (env : PeerEnv)
    (cfg : Config) (s : NodeState)
    (hcb : cb.hasUpdate = true → cb.updateRaises = false ∧ 0 < cb.updateArgc) :
    (sync_from_slaves cb env cfg s).2.accepted =
      specFirstNonEmpty env cfg.self_addr s.slaves ∧
    (sync_from_slaves cb env cfg s).1 = s ∧
    (∀ v, (sync_from_slaves cb env cfg s).2.accepted = some v →
      cb.hasUpdate = true →
      (sync_from_slaves cb env cfg s).2.events.getLast? =
        some (.updateCb (some v))) ∧
    ((sync_from_slaves cb env cfg s).2.accepted = none →
      ∀ a, Event.updateCb a ∉ (sync_from_slaves cb env cfg s).2.events) := by
  have h := syncLoop_spec cb env cfg.self_addr hcb s.slaves
  exact ⟨h.1, rfl, h.2.1, h.2.2⟩

/-- C3 witness: the concrete `[A, B]` scenario of the spec, via the
amended theorem. -/
theorem C3_sync_first_nonempty_witness :
    (sync_from_slaves ⟨false, false, false, 0, false, true, 1, false⟩
      ⟨fun _ => none,
       fun ip => if ip = "A" then some (.obj []) else
                 if ip = "B" then some (.obj [("x", .num 1)]) else none⟩
      ⟨"master", "S", none, none, false⟩
      ⟨"waiting", false, 0, 0, .null, false, false,
        ["A", "B"]⟩).2.accepted = some (.obj [("x", .num 1)]) := by
  have h := C3_sync_first_nonempty
    ⟨false, false, false, 0, false, true, 1, false⟩
    ⟨fun _ => none,
     fun ip => if ip = "A" then some (.obj []) else
               if ip = "B" then some (.obj [("x", .num 1)]) else none⟩
    ⟨"master", "S", none, none, false⟩
    ⟨"waiting", false, 0, 0, .null, false, false, ["A", "B"]⟩
    (fun _ => ⟨rfl, by decide⟩)
  rw [h.1]
  rfl

/-- C6: `promote_to_active` first sets the status to `'running'` and
invokes the start callback (with the transport handle and this node's own
port exactly when `pass_flask_app` was set), and only afterwards emits
the `reset` notifications to every other peer: the status assignment is
the first event of the trace and the notifications come last. Hypotheses:
the start callback does not raise, and when it is to receive the app the
address contains a port (otherwise Python raises before the callback). -/
theorem C6_promote_order (cb : Callbacks) (cfg : Config) (s : NodeState)
    (h1 : cb.hasStart = true → cb.startRaises = false)
    (h2 : cb.hasStart = true → cfg.pass_flask_app = true →
      (portOf cfg.self_addr).isSome = true) :
    (promote_to_active cb cfg s).state.status = "running" ∧
    (promote_to_active cb cfg s).raised = false ∧
    (promote_to_active cb cfg s).events =
      Event.setStatus "running" ::
        ((if cb.hasStart then
            [Event.startCb cfg.pass_flask_app
              (if cfg.pass_flask_app then portOf cfg.self_addr else none)]
          else []) ++
         notify_slaves_events cfg s.slaves "reset") ∧
    notify_slaves_events cfg s.slaves "reset" =
      (s.slaves.filter (fun ip => ip ≠ cfg.self_addr)).map
        (fun ip => Event.post ip "reset") ∧
    (promote_to_active cb cfg s).events.head? =
      some (Event.setStatus "running") := by
  have hnotify : notify_slaves_events cfg s.slaves "reset" =
      (s.slaves.filter (fun ip => ip ≠ cfg.self_addr)).map
        (fun ip => Event.post ip "reset") := rfl
  have hmain : (promote_to_active cb cfg s).state.status = "running" ∧
      (promote_to_active cb cfg s).raised = false ∧
      (promote_to_active cb cfg s).events =
        Event.setStatus "running" ::
          ((if cb.hasStart then
              [Event.startCb cfg.pass_flask_app
                (if cfg.pass_flask_app then portOf cfg.self_addr else none)]
            else []) ++
           notify_slaves_events cfg s.slaves "reset") := by
    unfold promote_to_active start_main_code
    by_cases hs : cb.hasStart
    · by_cases hp : cfg.pass_flask_app
      · cases hport : portOf cfg.self_addr with
        | none =>
          have := h2 hs hp
          rw [hport] at this
          simp at this
        | some port => simp [hs, hp, hport, h1 hs]
      · simp [hs, hp, h1 hs]
    · simp [hs]
  refine ⟨hmain.1, hmain.2.1, hmain.2.2, hnotify, ?_⟩
  rw [hmain.2.2]
  rfl

/-- C6 witness: a slave with a registered argument-free start callback
and two peers; the trace is the status assignment, the callback, then
the two notifications. -/
theorem C6_promote_order_witness :
    (promote_to_active ⟨true, false, false, 0, false, false, 0, false⟩
      ⟨"slave", "b:1", some "a:1", none, false⟩
      ⟨"waiting", false, 0, 0, .null, true, false,
        ["a:1", "b:1", "c:1"]⟩).events =
      [Event.setStatus "running", Event.startCb false none,
       Event.post "a:1" "reset", Event.post "c:1" "reset"] := by
  have h := C6_promote_order ⟨true, false, false, 0, false, false, 0, false⟩
    ⟨"slave", "b:1", some "a:1", none, false⟩
    ⟨"waiting", false, 0, 0, .null, true, false, ["a:1", "b:1", "c:1"]⟩
    (fun _ => rfl) (fun _ h => absurd h (by decide))
  rw [h.2.2.1]
  rfl

/-- Helper: the notify/update broadcast loops only target non-self
addresses. -/
theorem self_not_in_post_targets (self path : String) (l : List String) :
    self ∉ eventTargets ((l.filter (fun ip => ip ≠ self)).map
      (fun ip => Event.post ip path)) := by
  induction l with
  | nil => simp [eventTargets]
  | cons a l ih =>
    by_cases h : a = self
    · rw [List.filter_cons_of_neg (by simpa using h)]
      exact ih
    · rw [List.filter_cons_of_pos (by simpa using h), List.map_cons]
      simp only [eventTargets]
      intro hmem
      rcases List.mem_cons.mp hmem with heq | hmem2
      · exact h heq.symm
      · exact ih hmem2

/-- Helper: the `any_main_running` loop only targets non-self
addresses. -/
theorem amrLoop_targets (env : PeerEnv) (self : String) (l : List String) :
    self ∉ eventTargets (amrLoop env self l).2 := by
  induction l with
  | nil => simp [amrLoop, eventTargets]
  | cons a l ih =>
    by_cases h : a = self
    · simpa [amrLoop, h] using ih
    · by_cases hup : ping_status env a = "UP"
      · simp only [amrLoop, h, if_false, hup, if_true, eventTargets]
        intro hmem
        rcases List.mem_cons.mp hmem with heq | hmem2
        · exact h heq.symm
        · simp [eventTargets] at hmem2
      · simp only [amrLoop, h, if_false, hup, eventTargets]
        intro hmem
        rcases List.mem_cons.mp hmem with heq | hmem2
        · exact h heq.symm
        · exact ih hmem2

/-- Helper: the `sync_from_slaves` loop only targets non-self
addresses. -/
theorem syncLoop_targets (cb : Callbacks) (env : PeerEnv) (self : String)
    (l : List String) :
    self ∉ eventTargets (syncLoop cb env self l).events := by
  induction l with
  | nil => simp [syncLoop, eventTargets]
  | cons a l ih =>
    by_cases h : a = self
    · simpa [syncLoop, h] using ih
    · cases hsync : env.syncOf a with
      | none =>
        simp only [syncLoop, h, if_false, hsync, eventTargets]
        intro hmem
        rcases List.mem_cons.mp hmem with heq | hmem2
        · exact h heq.symm
        · exact ih hmem2
      | some v =>
        by_cases htr : truthy v
        · by_cases hu : cb.hasUpdate
          · by_cases hbad : (cb.updateRaises || decide (cb.updateArgc = 0)) = true
            · simp only [syncLoop, h, if_false, hsync, htr, if_true, hu,
                hbad, eventTargets]
              intro hmem
              rcases List.mem_cons.mp hmem with heq | hmem2
              · exact h heq.symm
              · exact ih hmem2
            · simp only [syncLoop, h, if_false, hsync, htr, if_true, hu,
                hbad, eventTargets]
              intro hmem
              rcases List.mem_cons.mp hmem with heq | hmem2
              · exact h heq.symm
              · simp [eventTargets] at hmem2
          · simp only [syncLoop, h, if_false, hsync, htr, if_true, hu,
              if_false, eventTargets]
            intro hmem
            rcases List.mem_cons.mp hmem with heq | hmem2
            · exact h heq.symm
            · simp [eventTargets] at hmem2
        · simp only [syncLoop, h, if_false, hsync, htr, if_false,
            eventTargets]
          intro hmem
          rcases List.mem_cons.mp hmem with heq | hmem2
          · exact h heq.symm
          · exact ih hmem2

/-- Helper: the `get_all_statuses` loop only targets non-self
addresses. -/
theorem gasLoop_targets (env : PeerEnv) (self : String) :
    ∀ (l : List String) (seen : List String),
      self ∉ eventTargets (gasLoop env self seen l).2 := by
  intro l
  induction l with
  | nil => intro seen; simp [gasLoop, eventTargets]
  | cons a l ih =>
    intro seen
    by_cases h : a = self
    · simpa [gasLoop, h] using ih seen
    · by_cases hseen : a ∈ seen
      · simp only [gasLoop, h, if_false, hseen, if_true, eventTargets]
        intro hmem
        rcases List.mem_cons.mp hmem with heq | hmem2
        · exact h heq.symm
        · exact ih seen hmem2
      · simp only [gasLoop, h, if_false, hseen, eventTargets]
        intro hmem
        rcases List.mem_cons.mp hmem with heq | hmem2
        · exact h heq.symm
        · exact ih (a :: seen) hmem2

/-- C9: in every peer iteration performed by the controller — reset and
update notification (`notify_slaves`, `send_update`), the liveness
re-check (`any_main_running`), the state-synchronization pull
(`sync_from_slaves`), and the aggregate status collection
(`get_all_statuses`) — the address equal to `self_addr` is skipped, so
`self_addr` is never the target of an outbound request. -/
theorem C9_self_exclusion (cb : Callbacks) (env : PeerEnv) (cfg : Config)
    (s : NodeState) (slaves : List String) (data : JsonVal)
    (endpoint : String) :
    cfg.self_addr ∉ eventTargets (notify_slaves_events cfg slaves endpoint) ∧
    (∀ r, any_main_running env cfg slaves = some r →
      cfg.self_addr ∉ eventTargets r.2) ∧
    cfg.self_addr ∉ eventTargets (sync_from_slaves cb env cfg s).2.events ∧
    cfg.self_addr ∉ eventTargets (send_update cfg slaves data) ∧
    cfg.self_addr ∉ eventTargets (get_all_statuses env cfg s).2 := by
  refine ⟨self_not_in_post_targets _ _ _, ?_,
    syncLoop_targets cb env cfg.self_addr s.slaves,
    self_not_in_post_targets _ _ _,
    gasLoop_targets env cfg.self_addr (gasIpList cfg s) [cfg.self_addr]⟩
  intro r hr
  unfold any_main_running at hr
  by_cases hc : cfg.role = "master" ∨
      (match cfg.parent_addr with
       | some p => decide (p ∈ slaves)
       | none => false) = true
  · simp only [hc, if_true] at hr
    cases hr
    exact amrLoop_targets env cfg.self_addr slaves
  · simp only [hc, if_false] at hr
    cases hp : cfg.parent_addr with
    | none => rw [hp] at hr; exact Option.noConfusion hr
    | some p =>
      rw [hp] at hr
      cases hr
      exact amrLoop_targets env cfg.self_addr (p :: slaves)

/-- C9 witness: a concrete slave whose own address occurs in every list it
iterates; none of the traces targets it. -/
theorem C9_self_exclusion_witness :
    "b:1" ∉ eventTargets (notify_slaves_events
      ⟨"slave", "b:1", some "a:1", none, false⟩ ["a:1", "b:1"] "reset") ∧
    "b:1" ∉ eventTargets (amrLoop ⟨fun _ => none, fun _ => none⟩ "b:1"
      ["a:1", "b:1"]).2 := by
  have h := C9_self_exclusion
    ⟨false, false, false, 0, false, false, 0, false⟩
    ⟨fun _ => none, fun _ => none⟩
    ⟨"slave", "b:1", some "a:1", none, false⟩
    ⟨"waiting", false, 0, 0, .null, true, false, ["a:1", "b:1"]⟩
    ["a:1", "b:1"] .null "reset"
  refine ⟨h.1, ?_⟩
  exact h.2.1 (amrLoop ⟨fun _ => none, fun _ => none⟩ "b:1" ["a:1", "b:1"])
    (by simp [any_main_running])

/-- Helper: the records produced by the `get_all_statuses` loop have
pairwise-distinct addresses, none of them already seen. -/
theorem gasLoop_nodup (env : PeerEnv) (self : String) :
    ∀ (l : List String) (seen : List String),
      ((gasLoop env self seen l).1.map (fun r => r.ip)).Nodup ∧
      (∀ r ∈ (gasLoop env self seen l).1, r.ip ∉ seen) := by
  intro l
  induction l with
  | nil => intro seen; simp [gasLoop]
  | cons a l ih =>
    intro seen
    by_cases h : a = self
    · simpa [gasLoop, h] using ih seen
    · by_cases hseen : a ∈ seen
      · simpa [gasLoop, h, hseen] using ih seen
      · have hrec : (gasLoop env self seen (a :: l)).1 =
            (match env.statusOf a with
             | some d => (⟨d.name.getD "Server", a, d.status⟩ : StatusRecord)
             | none => ⟨"Server", a, "crashed"⟩) ::
              (gasLoop env self (a :: seen) l).1 := by
          simp [gasLoop, h, hseen]
        rw [hrec]
        have hip : ((match env.statusOf a with
             | some d => (⟨d.name.getD "Server", a, d.status⟩ : StatusRecord)
             | none => ⟨"Server", a, "crashed"⟩) : StatusRecord).ip = a := by
          cases env.statusOf a <;> rfl
        constructor
        · rw [List.map_cons, List.nodup_cons]
          refine ⟨?_, (ih (a :: seen)).1⟩
          rw [hip]
          intro hmem
          rcases List.mem_map.mp hmem with ⟨r, hr, hipr⟩
          exact (ih (a :: seen)).2 r hr (hipr ▸ List.mem_cons_self a seen)
        · intro r hr
          rcases List.mem_cons.mp hr with heq | hmem
          · rw [heq, hip]
            exact hseen
          · intro habs
            exact (ih (a :: seen)).2 r hmem (List.mem_cons_of_mem a habs)

/-- Helper: every unreachable non-self address in the iterated list either
was already seen or yields a record with status `'crashed'`. -/
theorem gasLoop_crashed (env : PeerEnv) (self : String) :
    ∀ (l : List String) (seen : List String) (ip : String), ip ∈ l →
      ip ≠ self → env.statusOf ip = none →
      ip ∈ seen ∨ ∃ r ∈ (gasLoop env self seen l).1,
        r.ip = ip ∧ r.status = "crashed" := by
  intro l
  induction l with
  | nil => intro seen ip hmem; exact absurd hmem (by simp)
  | cons a l ih =>
    intro seen ip hmem hne hdown
    by_cases h : a = self
    · have hstep : gasLoop env self seen (a :: l) = gasLoop env self seen l := by
        simp [gasLoop, h]
      rw [hstep]
      rcases List.mem_cons.mp hmem with heq | hmem2
      · exact absurd (heq.trans h) hne
      · exact ih seen ip hmem2 hne hdown
    · by_cases hseen : a ∈ seen
      · have hstep : gasLoop env self seen (a :: l) =
            ((gasLoop env self seen l).1,
             Event.get a "/status" :: (gasLoop env self seen l).2) := by
          simp [gasLoop, h, hseen]
        rw [hstep]
        rcases List.mem_cons.mp hmem with heq | hmem2
        · exact Or.inl (heq ▸ hseen)
        · exact ih seen ip hmem2 hne hdown
      · have hrec : (gasLoop env self seen (a :: l)).1 =
            (match env.statusOf a with
             | some d => (⟨d.name.getD "Server", a, d.status⟩ : StatusRecord)
             | none => ⟨"Server", a, "crashed"⟩) ::
              (gasLoop env self (a :: seen) l).1 := by
          simp [gasLoop, h, hseen]
        rw [hrec]
        by_cases hipa : ip = a
        · refine Or.inr ⟨⟨"Server", a, "crashed"⟩, ?_, by simp [hipa], rfl⟩
          rw [hipa] at hdown
          rw [hdown]
          exact List.mem_cons_self _ _
        · rcases List.mem_cons.mp hmem with heq | hmem2
          · exact absurd heq hipa
          · rcases ih (a :: seen) ip hmem2 hne hdown with hs | ⟨r, hr, hrip, hrst⟩
            · rcases List.mem_cons.mp hs with heq | hs2
              · exact absurd heq hipa
              · exact Or.inl hs2
            · exact Or.inr ⟨r, List.mem_cons_of_mem _ hr, hrip, hrst⟩

/-- C8: `get_all_statuses` returns the record for `self_addr` first, never
lists the same address twice (even when the parent also occurs in the
slave list, or an address repeats), and reports every queried peer whose
request fails with status `'crashed'`. -/
theorem C8_all_statuses (env : PeerEnv) (cfg : Config) (s : NodeState) :
    (get_all_statuses env cfg s).1.head? =
      some ⟨cfg.name.getD "Server", cfg.self_addr, s.status⟩ ∧
    ((get_all_statuses env cfg s).1.map (fun r => r.ip)).Nodup ∧
    (∀ ip, ip ∈ gasIpList cfg s → ip ≠ cfg.self_addr →
      env.statusOf ip = none →
      ∃ r ∈ (get_all_statuses env cfg s).1,
        r.ip = ip ∧ r.status = "crashed") := by
  refine ⟨rfl, ?_, ?_⟩
  · show (StatusRecord.ip ⟨cfg.name.getD "Server", cfg.self_addr, s.status⟩ ::
      ((gasLoop env cfg.self_addr [cfg.self_addr] (gasIpList cfg s)).1.map
        (fun r => r.ip))).Nodup
    rw [List.nodup_cons]
    refine ⟨?_, (gasLoop_nodup env cfg.self_addr (gasIpList cfg s)
      [cfg.self_addr]).1⟩
    intro hmem
    rcases List.mem_map.mp hmem with ⟨r, hr, hipr⟩
    exact (gasLoop_nodup env cfg.self_addr (gasIpList cfg s)
      [cfg.self_addr]).2 r hr (by simp [hipr])
  · intro ip hmem hne hdown
    rcases gasLoop_crashed env cfg.self_addr (gasIpList cfg s)
        [cfg.self_addr] ip hmem hne hdown with hs | ⟨r, hr, hrip, hrst⟩
    · exact absurd (by simpa using hs) hne
    · exact ⟨r, List.mem_cons_of_mem _ hr, hrip, hrst⟩

/-- C8 witness: a slave whose parent also occurs in the slave list, with
one unreachable peer: self first, no duplicate addresses, the dead peer
reported as crashed. -/
theorem C8_all_statuses_witness :
    ∃ r ∈ (get_all_statuses
      ⟨fun ip => if ip = "a:1" then some ⟨some "A", "running", []⟩ else none,
       fun _ => none⟩
      ⟨"slave", "b:1", some "a:1", some "B", false⟩
      ⟨"waiting", false, 0, 0, .null, true, false,
        ["a:1", "b:1", "c:1"]⟩).1, r.ip = "c:1" ∧ r.status = "crashed" := by
  have h := C8_all_statuses
    ⟨fun ip => if ip = "a:1" then some ⟨some "A", "running", []⟩ else none,
     fun _ => none⟩
    ⟨"slave", "b:1", some "a:1", some "B", false⟩
    ⟨"waiting", false, 0, 0, .null, true, false, ["a:1", "b:1", "c:1"]⟩
  exact h.2.2 "c:1" (by simp [gasIpList]) (by decide) rfl

/-- C1: on a slave, a monitor tick in which the parent reports `running`
or `waiting` never calls `promote_to_active` and leaves the status
unchanged (in particular it does not become `running` via failover); and
conversely, whenever a tick does promote, the parent's reported status
was neither `running` nor `waiting` and the node's own status was not
already `running`. -/
theorem C1_slave_failover_guard (cb : Callbacks) (env : PeerEnv)
    (cfg : Config) (now : Nat) (s : NodeState) (parent : String)
    (hrole : cfg.role = "slave") (hpar : cfg.parent_addr = some parent) :
    (ping_raw_status env parent = some "running" ∨
        ping_raw_status env parent = some "waiting" →
      (monitorTick cb env cfg now s).promoted = false ∧
      (monitorTick cb env cfg now s).state.status = s.status) ∧
    ((monitorTick cb env cfg now s).promoted = true →
      (ping_raw_status env parent ≠ some "running" ∧
       ping_raw_status env parent ≠ some "waiting") ∧
      s.status ≠ "running") := by
  unfold monitorTick
  split
  · refine ⟨fun _ => ⟨rfl, ?_⟩, fun hp => Bool.noConfusion hp⟩
    have h2 : (initializeNode cb env cfg true
        {s with stop_flag := true, custom_status := false, timeout := 0}).state.status = s.status := by
      rw [initializeNode_state]
      simp [hrole]
    exact h2
  · split
    · next heq => rw [hpar] at heq; exact Option.noConfusion heq
    · next parent0 heq =>
      rw [hpar] at heq
      cases heq
      simp only []
      split
      · next hcond =>
        split
        · exact ⟨fun hh => ((hh.elim hcond.1.1 hcond.1.2 : False)).elim,
            fun hp => Bool.noConfusion hp⟩
        · split
          · exact ⟨fun hh => ((hh.elim hcond.1.1 hcond.1.2 : False)).elim,
              fun hp => Bool.noConfusion hp⟩
          · exact ⟨fun hh => ((hh.elim hcond.1.1 hcond.1.2 : False)).elim,
              fun _ => ⟨hcond.1, hcond.2⟩⟩
      · exact ⟨fun _ => ⟨rfl, rfl⟩, fun hp => Bool.noConfusion hp⟩

/-- C1 witness: with the parent reporting `running`, the concrete slave
tick of the C5 scenario does not promote and keeps its status. -/
theorem C1_slave_failover_guard_witness :
    (monitorTick ⟨false, false, false, 0, false, false, 0, false⟩
      ⟨fun _ => some ⟨none, "running", []⟩, fun _ => none⟩
      ⟨"slave", "b:1", some "a:1", none, false⟩ 100
      ⟨"waiting", false, 0, 0, .null, true, false,
        ["a:1", "b:1"]⟩).promoted = false := by
  have h := C1_slave_failover_guard
    ⟨false, false, false, 0, false, false, 0, false⟩
    ⟨fun _ => some ⟨none, "running", []⟩, fun _ => none⟩
    ⟨"slave", "b:1", some "a:1", none, false⟩ 100
    ⟨"waiting", false, 0, 0, .null, true, false, ["a:1", "b:1"]⟩
    "a:1" rfl rfl
  exact (h.1 (Or.inl rfl)).1

/-- C4 counterexample: a registered update callback that raises makes the
`/update` control operation propagate the exception (the handler has no
try/except around the callback), so the operation does not complete
normally — refuting "caught at the call site" for the control surface. -/
theorem C4_counterexample :
    (update ⟨false, false, false, 0, false, true, 1, true⟩
      (.obj [("x", .num 1)])
      ⟨"waiting", false, 0, 0, .null, false, false, []⟩).raised = true := rfl

/-- C4 (amended): a raising host callback is NOT caught at the call site
of the control operations — it propagates out of `receiveUpdate`
(`update`), `stop`, and `reset` and aborts them (for `reset`, before
`initialize` runs; the state mutation preceding the callback persists);
only the monitor loop catches callback errors, via its per-tick
catch-all, and continues ticking (a tick never terminates the loop except
through the override-deadline branch). -/
theorem C4_callback_error_propagation (cb : Callbacks) (env : PeerEnv)
    (cfg : Config) (now : Nat) (s : NodeState) (payload : JsonVal) :
    (cb.hasUpdate = true → cb.updateRaises = true →
      (update cb payload s).raised = true ∧
      (update cb payload s).state.last_update = payload) ∧
    (cb.hasStop = true → cb.stopRaises = true →
      (stopEndpoint cb s).raised = true ∧
      (reset cb env cfg s).raised = true ∧
      (reset cb env cfg s).events = (stop_main_code cb "reset" s).events) ∧
    (¬(s.timeout ≠ 0 ∧ s.timeout_start + s.timeout < now) →
      (monitorTick cb env cfg now s).loopContinues = true) := by
  refine ⟨?_, ?_, ?_⟩
  · intro hu hr
    unfold update
    simp [hu, hr]
  · intro hst hr
    have hraised : (stop_main_code cb "reset" s).raised = true := by
      rw [stop_main_code_raised, hst, hr]
      rfl
    refine ⟨?_, ?_, ?_⟩
    · unfold stopEndpoint stop_main_code
      simp [hst, hr]
    · unfold reset
      simp [hraised]
    · unfold reset
      simp [hraised]
  · intro htm
    unfold monitorTick
    split
    · next hc => exact absurd hc htm
    · split
      · split
        · rfl
        · simp only []
          split
          · split
            · rfl
            · split
              · rfl
              · rfl
          · rfl
      · rfl

/-- C4 witness: concrete raising stop and update callbacks abort their
operations, while a concrete promoting tick whose start callback raises
leaves the monitor loop running. -/
theorem C4_callback_error_propagation_witness :
    (stopEndpoint ⟨false, false, true, 1, true, false, 0, false⟩
      ⟨"running", false, 0, 0, .null, false, false, []⟩).raised = true ∧
    (monitorTick ⟨true, true, false, 0, false, false, 0, false⟩
      ⟨fun _ => none, fun _ => none⟩
      ⟨"slave", "b:1", some "a:1", none, false⟩ 100
      ⟨"waiting", false, 0, 0, .null, true, false,
        ["a:1", "b:1"]⟩).loopContinues = true := by
  have h1 := C4_callback_error_propagation
    ⟨false, false, true, 1, true, false, 0, false⟩
    ⟨fun _ => none, fun _ => none⟩
    ⟨"slave", "b:1", some "a:1", none, false⟩ 100
    ⟨"running", false, 0, 0, .null, false, false, []⟩ .null
  have h2 := C4_callback_error_propagation
    ⟨true, true, false, 0, false, false, 0, false⟩
    ⟨fun _ => none, fun _ => none⟩
    ⟨"slave", "b:1", some "a:1", none, false⟩ 100
    ⟨"waiting", false, 0, 0, .null, true, false, ["a:1", "b:1"]⟩ .null
  exact ⟨(h1.2.1 rfl rfl).1, h2.2.2 (by decide)⟩

/-- The state left by `reset`, in closed form: the stop path computes the
new status; a raising stop callback cuts the call short; otherwise the
master path (no pending timeout) ends `running`, and the slave/timeout
path arms the monitor exactly when none is alive. -/
theorem reset_state (cb : Callbacks) (env : PeerEnv) (cfg : Config)
    (s : NodeState) :
    (reset cb env cfg s).state =
      if cb.hasStop = true ∧ cb.stopRaises = true then
        {s with status := if s.custom_status then s.status else "waiting"}
      else if cfg.role = "master" ∧ s.timeout = 0 then
        {s with status := "running"}
      else if s.monitor_alive then
        {s with status := if s.custom_status then s.status else "waiting"}
      else
        {s with status := if s.custom_status then s.status else "waiting", monitor_alive := true, stop_flag := false} := by
  unfold reset
  by_cases hA : cb.hasStop = true ∧ cb.stopRaises = true
  · have hr : (stop_main_code cb "reset" s).raised = true := by
      rw [stop_main_code_raised, hA.1, hA.2]
      rfl
    simp [hr, hA, stop_main_code_state]
  · have hr : (stop_main_code cb "reset" s).raised = false := by
      rw [stop_main_code_raised]
      by_cases h1 : cb.hasStop
      · by_cases h2 : cb.stopRaises
        · exact absurd ⟨h1, h2⟩ hA
        · simp [h2]
      · simp [h1]
    simp only [hr, Bool.false_eq_true, if_false, hA, stop_main_code_state,
      initializeNode_state]

/-- C7: `reset` is idempotent on the node state — running it twice from
any starting state ends in exactly the state one run reaches; moreover
(when the stop callback does not raise) one `reset` ends with status
`running` for a master with no pending override, arms the monitor for
every other role/timeout combination, and every `reset` invokes the stop
callback (when registered) as its first action, before any
re-initialization — so two resets cannot invoke the start callback twice
without an intervening stop, and a slave whose monitor is already armed
does not get a second loop (the monitor is started only when none is
observed alive). -/
theorem C7_reset_idempotent (cb : Callbacks) (env : PeerEnv) (cfg : Config)
    (s : NodeState) :
    (reset cb env cfg (reset cb env cfg s).state).state =
      (reset cb env cfg s).state ∧
    (¬(cb.hasStop = true ∧ cb.stopRaises = true) →
      (cfg.role = "master" → s.timeout = 0 →
        (reset cb env cfg s).state.status = "running") ∧
      (¬(cfg.role = "master" ∧ s.timeout = 0) →
        (reset cb env cfg s).state.monitor_alive = true)) ∧
    (cb.hasStop = true → ∃ rest, (reset cb env cfg s).events =
      Event.stopCb (if 0 < cb.stopArgc then some "reset" else none) :: rest) := by
  refine ⟨?_, ?_, ?_⟩
  · simp only [reset_state]
    by_cases hA : cb.hasStop = true ∧ cb.stopRaises = true
    · by_cases hC : s.custom_status <;> simp [hA, hC]
    · by_cases hM : cfg.role = "master" ∧ s.timeout = 0
      · simp [hA, hM]
      · by_cases hC : s.custom_status <;>
          by_cases hAl : s.monitor_alive <;>
          simp [hA, hM, hC, hAl]
  · intro hA
    rw [reset_state]
    constructor
    · intro hrole htm
      simp [hA, hrole, htm]
    · intro hM
      by_cases hAl : s.monitor_alive <;> simp [hA, hM, hAl]
  · intro hst
    have hev : (stop_main_code cb "reset" s).events =
        [.stopCb (if 0 < cb.stopArgc then some "reset" else none)] := by
      unfold stop_main_code
      simp [hst]
    unfold reset
    by_cases hr : (stop_main_code cb "reset" s).raised
    · simp only [hr, if_true]
      exact ⟨[], hev⟩
    · simp only [hr, if_false]
      refine ⟨(initializeNode cb env cfg (stop_main_code cb "reset" s).state.monitor_alive (stop_main_code cb "reset" s).state).events, ?_⟩
      rw [hev]
      rfl

/-- C7 witness: a master with no pending override double-reset ends
`running` both times, and a slave reset arms the monitor. -/
theorem C7_reset_idempotent_witness :
    (reset ⟨false, false, false, 0, false, false, 0, false⟩
      ⟨fun _ => none, fun _ => none⟩
      ⟨"master", "a:1", none, none, false⟩
      (reset ⟨false, false, false, 0, false, false, 0, false⟩
        ⟨fun _ => none, fun _ => none⟩
        ⟨"master", "a:1", none, none, false⟩
        ⟨"waiting", false, 0, 0, .null, false, false,
          ["a:1", "b:1"]⟩).state).state =
      (reset ⟨false, false, false, 0, false, false, 0, false⟩
        ⟨fun _ => none, fun _ => none⟩
        ⟨"master", "a:1", none, none, false⟩
        ⟨"waiting", false, 0, 0, .null, false, false,
          ["a:1", "b:1"]⟩).state ∧
    (reset ⟨false, false, false, 0, false, false, 0, false⟩
      ⟨fun _ => none, fun _ => none⟩
      ⟨"master", "a:1", none, none, false⟩
      ⟨"waiting", false, 0, 0, .null, false, false,
        ["a:1", "b:1"]⟩).state.status = "running" ∧
    (reset ⟨false, false, false, 0, false, false, 0, false⟩
      ⟨fun _ => none, fun _ => none⟩
      ⟨"slave", "b:1", some "a:1", none, false⟩
      ⟨"waiting", false, 0, 0, .null, false, false,
        ["a:1", "b:1"]⟩).state.monitor_alive = true := by
  have hm := C7_reset_idempotent
    ⟨false, false, false, 0, false, false, 0, false⟩
    ⟨fun _ => none, fun _ => none⟩
    ⟨"master", "a:1", none, none, false⟩
    ⟨"waiting", false, 0, 0, .null, false, false, ["a:1", "b:1"]⟩
  have hs := C7_reset_idempotent
    ⟨false, false, false, 0, false, false, 0, false⟩
    ⟨fun _ => none, fun _ => none⟩
    ⟨"slave", "b:1", some "a:1", none, false⟩
    ⟨"waiting", false, 0, 0, .null, false, false, ["a:1", "b:1"]⟩
  refine ⟨hm.1, (hm.2.1 (by simp)).1 rfl rfl, (hs.2.1 (by simp)).2 (by simp)⟩

end Lighthouse
